import Mathlib

/-!
Verification development for the static-asset resolver of
`src/code_insight/mcp_server.py`.

Modelling conventions:
* A Python string is a `List Char`.
* A filesystem path segment (`Seg`) is a `List Char`; a path (`Path0`) is the
  list of its segments, read as an absolute POSIX path, so `["srv","static"]`
  stands for `/srv/static` and `[]` for `/`.
* The filesystem is a record `FS` of the three operations the handler uses:
  `Path.resolve()` (canonicalization: `none` models the `ValueError` /
  `RuntimeError` branch), `Path.is_file()`, and the on-disk content of a file
  (read by the web framework when streaming a `FileResponse`).
-/

abbrev Seg : Type := List Char

abbrev Path0 : Type := List Seg

/-- The filesystem operations `serve_static` depends on.  `resolve` takes a
possibly-unnormalized path (its segments may contain `..`) and returns its
canonical absolute form, or `none` when canonicalization raises. -/
structure FS where
  resolve : Path0 → Option Path0
  isFile : Path0 → Bool
  content : Path0 → List Char

/-- Outcome of one resolution, as in the spec's taxonomy: `Found p` stands for
`FileResponse(p)`, `Forbidden` for `HTMLResponse("Forbidden", 403)`,
`NotFound` for `HTMLResponse("Not Found", 404)`. -/
inductive Outcome where
  | Found : Path0 → Outcome
  | Forbidden : Outcome
  | NotFound : Outcome
deriving DecidableEq, Repr

/-- Does the string start with the character `/` ?  (`str.startswith("/")`,
which is what decides whether a pathlib join discards the left operand.) -/
def startsSlash : List Char → Bool
  | [] => false
  | c :: _ => c = '/'

/-- Does the string end with the character `/` ?  (`str.endswith("/")`.) -/
def endsSlash (s : List Char) : Bool :=
  match s.reverse with
  | [] => false
  | c :: _ => c = '/'

/-- Python `str.rstrip("/")`: remove the maximal trailing run of `/`. -/
def pyRstripSlash : List Char → List Char
  | [] => []
  | c :: cs =>
    match pyRstripSlash cs with
    | [] => if c = '/' then [] else [c]
    | r => c :: r

/-- Split a string at every `/` (Python `str.split("/")`, as used implicitly
by pathlib when parsing a path string into parts). -/
def splitSlash : List Char → List (List Char)
  | [] => [[]]
  | c :: cs =>
    if c = '/' then [] :: splitSlash cs
    else
      match splitSlash cs with
      | t :: ts => (c :: t) :: ts
      | [] => [[c]]

/-- The segments pathlib keeps from a path string: empty pieces (consecutive
or trailing slashes) and single-dot pieces are dropped, `..` is kept. -/
def parseSegs (s : List Char) : Path0 :=
  (splitSlash s).filter (fun t => t ≠ [] ∧ t ≠ ['.'])

/-- The pathlib `/` operator, `root / s`: when `s` is an absolute path string
the left operand is discarded, otherwise the parsed segments are appended.
No `.`/`..` resolution happens here. -/
def pathJoin (root : Path0) (s : List Char) : Path0 :=
  if startsSlash s then parseSegs s else root ++ parseSegs s

/-- `str(p)` for an absolute pathlib path: `/` followed by the segments
joined with `/`. -/
def pathStr (p : Path0) : List Char :=
  '/' :: List.intercalate ['/'] p

/-- Lines 40-42 of the source: default to `index.html` when no file is
specified or the request looks like a directory.
`filepath = filepath.rstrip("/") + "/index.html" if filepath else "index.html"`
under the guard `if not filepath or filepath.endswith("/")`. -/
def normalizeReq (s : List Char) : List Char :=
  if s = [] then "index.html".toList
  else if endsSlash s then pyRstripSlash s ++ ('/' :: "index.html".toList)
  else s

/-- The candidate path built on line 44 of the source:
`file_path = STATIC_DIR / filepath` after the default-document normalization. -/
def candidate (root : Path0) (s : List Char) : Path0 :=
  pathJoin root (normalizeReq s)

/-- The handler `serve_static` (lines 35-59 of the source), as a function of
the filesystem, the static root and the `filepath` path parameter:
resolve the candidate and the root (`Forbidden` if either raises), reject
with `Forbidden` unless `str(file_path).startswith(str(STATIC_DIR.resolve()))`,
answer `NotFound` unless `file_path.is_file()`, and otherwise return the
resolved path as a `FileResponse`. -/
def serve_static (fs : FS) (staticDir : Path0) (filepath : List Char) : Outcome :=
  match fs.resolve (candidate staticDir filepath), fs.resolve staticDir with
  | some fp, some rt =>
    if List.isPrefixOf (pathStr rt) (pathStr fp) then
      if fs.isFile fp then Outcome.Found fp else Outcome.NotFound
    else Outcome.Forbidden
  | some _, none => Outcome.Forbidden
  | none, _ => Outcome.Forbidden

/-- An HTTP response, reduced to the status code and body that the handlers
choose; body bytes are modelled as characters. -/
structure Response where
  status : Nat
  body : List Char
deriving DecidableEq, Repr

/-- The response the caller sees for each outcome.  The `Forbidden` and
`NotFound` branches are the source's `HTMLResponse("Forbidden", 403)` and
`HTMLResponse("Not Found", 404)`.  The `Found` branch is modelled from the
spec: the external web framework's `FileResponse` (not under `src/`) streams
exactly the on-disk content of the given path with status 200. -/
def respond (fs : FS) : Outcome → Response
  | Outcome.Found p => ⟨200, fs.content p⟩
  | Outcome.Forbidden => ⟨403, "Forbidden".toList⟩
  | Outcome.NotFound => ⟨404, "Not Found".toList⟩

/-- Segment-wise path containment: `p` lies inside the directory `root`
(true containment, as opposed to the source's check on `pathStr` strings). -/
def segInside (root p : Path0) : Bool :=
  List.isPrefixOf root p

/-- Purely lexical canonicalization on a symlink-free filesystem: `.` is
dropped and `..` pops the last kept segment (at the root, `/..` is `/`).
Used to build concrete filesystem states for witnesses. -/
def lexAux : Path0 → Path0 → Path0
  | stack, [] => stack.reverse
  | stack, seg :: rest =>
    if seg = ['.'] then lexAux stack rest
    else if seg = ['.', '.'] then lexAux stack.tail rest
    else lexAux (seg :: stack) rest

/-- Canonical form of a path on a symlink-free filesystem. -/
def resolveLex (p : Path0) : Path0 :=
  lexAux [] p

/-- The static root used by the concrete witness filesystem: `/srv/static`. -/
def rootW : Path0 := ["srv".toList, "static".toList]

/-- `/srv/static-evil/x`: a file outside the root whose canonical string has
the root's canonical string as a proper prefix. -/
def pEvil : Path0 := ["srv".toList, "static-evil".toList, "x".toList]

/-- `/srv/static/index.html`. -/
def pIndex : Path0 := ["srv".toList, "static".toList, "index.html".toList]

/-- `/srv/static/a.txt`. -/
def pATxt : Path0 := ["srv".toList, "static".toList, "a.txt".toList]

/-- `/srv/static/docs/index.html`. -/
def pDocsIndex : Path0 :=
  ["srv".toList, "static".toList, "docs".toList, "index.html".toList]

/-- A concrete symlink-free filesystem state: regular files
`/srv/static/index.html`, `/srv/static/a.txt`, `/srv/static/docs/index.html`
and the out-of-root sibling file `/srv/static-evil/x`; `/srv/static/docs` is
a directory, so not a regular file. -/
def fsDemo : FS where
  resolve := fun p => some (resolveLex p)
  isFile := fun p => p == pIndex || p == pATxt || p == pDocsIndex || p == pEvil
  content := fun p => if p == pATxt then "hello".toList else []

/-- A filesystem state on which every canonicalization raises. -/
def fsFail : FS where
  resolve := fun _ => none
  isFile := fun _ => false
  content := fun _ => []

/-- A request, reduced to its query parameters (the only part the claims
mention); both remaining handlers ignore it entirely. -/
structure Request where
  query : List (List Char × List Char)

/-- A redirect response: status code and `Location` target. -/
structure Redirect where
  status : Nat
  location : List Char
deriving DecidableEq, Repr

/-- The handler `root_redirect` (lines 62-65 of the source):
`RedirectResponse(url="/static/", status_code=302)` for every request. -/
def root_redirect (_ : Request) : Redirect :=
  ⟨302, "/static/".toList⟩

/-- The handler `show_info` (lines 27-29 of the source):
`PlainTextResponse("Health Ok!")`, which carries status 200, for every
request. -/
def show_info (_ : Request) : Response :=
  ⟨200, "Health Ok!".toList⟩

/-- Helper: when both canonicalizations succeed and the string containment
test fails, the handler answers `Forbidden`. -/
lemma forbidden_of_prefix_fail (fs : FS) (root : Path0) (s : List Char) (p rt : Path0)
    (hp : fs.resolve (candidate root s) = some p)
    (hrt : fs.resolve root = some rt)
    (hout : List.isPrefixOf (pathStr rt) (pathStr p) = false) :
    serve_static fs root s = Outcome.Forbidden := by
  simp [serve_static, hp, hrt, hout]

/-- Helper: a `Found` answer implies the canonicalized root's string is a
string prefix of the returned path's string. -/
lemma found_implies_prefixed (fs : FS) (root : Path0) (s : List Char) (p : Path0)
    (hf : serve_static fs root s = Outcome.Found p) :
    ∃ rt, fs.resolve root = some rt ∧
      List.isPrefixOf (pathStr rt) (pathStr p) = true := by
  unfold serve_static at hf
  split at hf
  next fp rt hc hr =>
    by_cases hin : List.isPrefixOf (pathStr rt) (pathStr fp) = true
    · rw [if_pos hin] at hf
      by_cases hfile : fs.isFile fp = true
      · rw [if_pos hfile] at hf
        have hfp : fp = p := by injection hf
        subst hfp
        exact ⟨rt, hr, hin⟩
      · rw [if_neg hfile] at hf; simp at hf
    · rw [if_neg hin] at hf; simp at hf
  all_goals simp at hf


/-- Helper: stripping trailing slashes yields the empty string or a string
with the same first character. -/
lemma pyRstripSlash_head (c : Char) (cs : List Char) :
    pyRstripSlash (c :: cs) = [] ∨ ∃ r, pyRstripSlash (c :: cs) = c :: r := by
  unfold pyRstripSlash
  cases h : pyRstripSlash cs with
  | nil =>
    by_cases hc : c = '/'
    · left; simp [hc]
    · right; exact ⟨[], by simp [hc]⟩
  | cons a r => right; exact ⟨a :: r, rfl⟩

/-- Helper: the default-document normalization keeps a leading slash. -/
lemma startsSlash_normalizeReq (s : List Char) (h : startsSlash s = true) :
    startsSlash (normalizeReq s) = true := by
  have hne : s ≠ [] := by
    intro he; rw [he] at h; exact absurd h (by decide)
  unfold normalizeReq
  rw [if_neg hne]
  by_cases he : endsSlash s = true
  · rw [if_pos he]
    cases s with
    | nil => exact absurd rfl hne
    | cons c cs =>
      have hc : c = '/' := by
        have := h; unfold startsSlash at this; exact of_decide_eq_true this
      rcases pyRstripSlash_head c cs with h0 | ⟨r, hr⟩
      · rw [h0]; rfl
      · rw [hr, hc]; rfl
  · rw [if_neg he]; exact h

/-- Claim C1 (counterexample): on a filesystem with the sibling file
`/srv/static-evil/x`, the request `../static-evil/x` against root
`/srv/static` canonicalizes outside the root (segment-wise it is not inside
`/srv/static`) and yet is returned as `Found` — out-of-root content is
served, contradicting the claim that such requests never yield `Found`. -/
theorem c1_counterexample :
    serve_static fsDemo rootW "../static-evil/x".toList = Outcome.Found pEvil
    ∧ segInside rootW pEvil = false := by
  constructor
  · decide
  · decide

/-- Claim C1 (amended): a request is rejected as `Forbidden` exactly on the
string test — whenever both canonicalizations succeed and the canonical
candidate's string does not start with the canonical root's string, `resolve`
yields `Forbidden`; but an out-of-root path whose canonical string merely
extends the root's string (a sibling such as `/srv/static-evil`) can still be
returned as `Found`. -/
theorem c1_traversal_rejected (fs : FS) (root : Path0) (s : List Char) (p rt : Path0)
    (hp : fs.resolve (candidate root s) = some p)
    (hrt : fs.resolve root = some rt)
    (hout : List.isPrefixOf (pathStr rt) (pathStr p) = false) :
    serve_static fs root s = Outcome.Forbidden :=
  forbidden_of_prefix_fail fs root s p rt hp hrt hout

/-- Witness for C1's amended theorem: the spec's own example, root
`/srv/static` and request `../../etc/passwd`, is rejected as `Forbidden`. -/
theorem c1_witness :
    serve_static fsDemo rootW "../../etc/passwd".toList = Outcome.Forbidden :=
  c1_traversal_rejected fsDemo rootW "../../etc/passwd".toList
    ["etc".toList, "passwd".toList] rootW (by decide) (by decide) (by decide)

/-- Claim C2: when both canonicalizations succeed, the request is accepted
(yields `Found` or `NotFound`, i.e. not `Forbidden`) precisely when the
canonical candidate's string representation starts with the canonical root's
string representation; the containment check is exactly this string test. -/
theorem c2_containment_is_string_test (fs : FS) (root : Path0) (s : List Char)
    (p rt : Path0)
    (hp : fs.resolve (candidate root s) = some p)
    (hrt : fs.resolve root = some rt) :
    (serve_static fs root s ≠ Outcome.Forbidden ↔
      List.isPrefixOf (pathStr rt) (pathStr p) = true) := by
  unfold serve_static
  rw [hp, hrt]
  by_cases hin : List.isPrefixOf (pathStr rt) (pathStr p) = true
  · simp only [hin, if_true, iff_true]
    cases hfile : fs.isFile p <;> simp [hfile]
  · simp only [if_neg hin]
    simp [hin]

/-- Witness for C2: the sibling path `/srv/static-evil/x` (canonical string
`/srv/static-evil/x`, which starts with the root string `/srv/static`)
passes the containment check even though it is a sibling of the root. -/
theorem c2_witness :
    serve_static fsDemo rootW "../static-evil/x".toList ≠ Outcome.Forbidden :=
  (c2_containment_is_string_test fsDemo rootW "../static-evil/x".toList
    pEvil rootW (by decide) (by decide)).mpr (by decide)

/-- Claim C3: default-document normalization before the join — the empty
request targets `<root>/index.html`; a request with trailing separators, such
as `docs/`, targets `<root>/docs/index.html` (all trailing separators are
stripped, then a single separator and `index.html` are appended); any other
request is joined with the root unchanged. -/
theorem c3_default_document (root : Path0) (s : List Char)
    (h1 : s ≠ []) (h2 : endsSlash s = false) :
    candidate root [] = root ++ ["index.html".toList]
    ∧ candidate root "docs/".toList = root ++ ["docs".toList, "index.html".toList]
    ∧ candidate root "docs///".toList = root ++ ["docs".toList, "index.html".toList]
    ∧ candidate root s = pathJoin root s := by
  refine ⟨rfl, rfl, rfl, ?_⟩
  · have hn : normalizeReq s = s := by
      unfold normalizeReq
      rw [if_neg h1, if_neg (by rw [h2]; exact Bool.false_ne_true)]
    rw [candidate, hn]

/-- Witness for C3: at root `/srv/static`, the empty request targets
`/srv/static/index.html` and the request `a.txt` is joined unchanged. -/
theorem c3_witness :
    candidate rootW [] = rootW ++ ["index.html".toList]
    ∧ candidate rootW "a.txt".toList = pathJoin rootW "a.txt".toList :=
  ⟨(c3_default_document rootW "a.txt".toList (by decide) (by decide)).1,
   (c3_default_document rootW "a.txt".toList (by decide) (by decide)).2.2.2⟩

/-- Claim C4: when the canonicalized candidate passes the string containment
check and is an existing regular file, the handler returns `Found` carrying
exactly the canonical resolved path, and the response streams exactly that
file's on-disk content. -/
theorem c4_found_serves_file (fs : FS) (root : Path0) (s : List Char) (p rt : Path0)
    (hp : fs.resolve (candidate root s) = some p)
    (hrt : fs.resolve root = some rt)
    (hin : List.isPrefixOf (pathStr rt) (pathStr p) = true)
    (hfile : fs.isFile p = true) :
    serve_static fs root s = Outcome.Found p
    ∧ respond fs (serve_static fs root s) = ⟨200, fs.content p⟩ := by
  have h : serve_static fs root s = Outcome.Found p := by
    simp [serve_static, hp, hrt, hin, hfile]
  exact ⟨h, by rw [h]; rfl⟩

/-- Witness for C4: `a.txt` exists under the root of the demo filesystem;
it is answered as `Found /srv/static/a.txt` with its content `hello`. -/
theorem c4_witness :
    serve_static fsDemo rootW "a.txt".toList = Outcome.Found pATxt
    ∧ respond fsDemo (serve_static fsDemo rootW "a.txt".toList)
      = ⟨200, "hello".toList⟩ := by
  have h := c4_found_serves_file fsDemo rootW "a.txt".toList pATxt rootW
    (by decide) (by decide) (by decide) (by decide)
  exact ⟨h.1, h.2.trans (by decide)⟩

/-- Claim C5: when canonicalization of the candidate path fails (the
`ValueError` / `RuntimeError` branch), the handler yields `Forbidden`,
surfaced as a 403 response whose body is the constant string `Forbidden`
(no path details). -/
theorem c5_resolve_failure (fs : FS) (root : Path0) (s : List Char)
    (hp : fs.resolve (candidate root s) = none) :
    serve_static fs root s = Outcome.Forbidden
    ∧ respond fs (serve_static fs root s) = ⟨403, "Forbidden".toList⟩ := by
  have h : serve_static fs root s = Outcome.Forbidden := by
    simp [serve_static, hp]
  exact ⟨h, by rw [h]; rfl⟩

/-- Witness for C5: on the filesystem where every canonicalization raises,
any request is answered 403 `Forbidden`. -/
theorem c5_witness :
    serve_static fsFail rootW "a.txt".toList = Outcome.Forbidden
    ∧ respond fsFail (serve_static fsFail rootW "a.txt".toList)
      = ⟨403, "Forbidden".toList⟩ :=
  c5_resolve_failure fsFail rootW "a.txt".toList (by decide)

/-- Claim C6: when the canonicalized candidate passes the string containment
check but is not an existing regular file, the handler yields `NotFound`,
surfaced as a 404 response with body `Not Found`; in particular a directory
named without a trailing separator (see the witness) falls in this case. -/
theorem c6_not_a_file (fs : FS) (root : Path0) (s : List Char) (p rt : Path0)
    (hp : fs.resolve (candidate root s) = some p)
    (hrt : fs.resolve root = some rt)
    (hin : List.isPrefixOf (pathStr rt) (pathStr p) = true)
    (hfile : fs.isFile p = false) :
    serve_static fs root s = Outcome.NotFound
    ∧ respond fs (serve_static fs root s) = ⟨404, "Not Found".toList⟩ := by
  have h : serve_static fs root s = Outcome.NotFound := by
    simp [serve_static, hp, hrt, hin, hfile]
  exact ⟨h, by rw [h]; rfl⟩

/-- Witness for C6: `docs` names a directory of the demo filesystem and has
no trailing separator, so no default document is substituted; the request is
answered 404 `Not Found`. -/
theorem c6_witness :
    serve_static fsDemo rootW "docs".toList = Outcome.NotFound
    ∧ respond fsDemo (serve_static fsDemo rootW "docs".toList)
      = ⟨404, "Not Found".toList⟩ :=
  c6_not_a_file fsDemo rootW "docs".toList
    ["srv".toList, "static".toList, "docs".toList] rootW
    (by decide) (by decide) (by decide) (by decide)

/-- Claim C7: the handler is a pure function of the request and the
filesystem's current contents — it consults only the canonicalizations of
the candidate and the root and the regular-file test on the resolved
candidate (all read-only), so two filesystems agreeing on those give
identical outcomes; in particular two calls with identical arguments and an
unchanged filesystem agree. -/
theorem c7_pure_of_fs (fs1 fs2 : FS) (root : Path0) (s : List Char)
    (h1 : fs1.resolve (candidate root s) = fs2.resolve (candidate root s))
    (h2 : fs1.resolve root = fs2.resolve root)
    (h3 : ∀ p, fs1.resolve (candidate root s) = some p →
      fs1.isFile p = fs2.isFile p) :
    serve_static fs1 root s = serve_static fs2 root s := by
  unfold serve_static
  rw [← h1, ← h2]
  cases hp : fs1.resolve (candidate root s) with
  | none => rfl
  | some p =>
    cases fs1.resolve root with
    | none => rfl
    | some rt =>
      simp [h3 p hp]

/-- Witness for C7: calling the handler twice on the unchanged demo
filesystem with identical arguments yields identical outcomes. -/
theorem c7_witness :
    serve_static fsDemo rootW "a.txt".toList
      = serve_static fsDemo rootW "a.txt".toList :=
  c7_pure_of_fs fsDemo fsDemo rootW "a.txt".toList rfl rfl (fun _ _ => rfl)

/-- Claim C8: a request beginning with a path separator makes the pathlib
join discard the root entirely — the candidate does not depend on the root;
such a request yields `Found` only when its canonical string starts with the
canonical root's string, and when both canonicalizations succeed and that
string test fails it yields `Forbidden`. -/
theorem c8_absolute_request (fs : FS) (root root2 : Path0) (s : List Char)
    (h : startsSlash s = true) :
    candidate root s = candidate root2 s
    ∧ (∀ p, serve_static fs root s = Outcome.Found p →
        ∃ rt, fs.resolve root = some rt ∧
          List.isPrefixOf (pathStr rt) (pathStr p) = true)
    ∧ (∀ p rt, fs.resolve (candidate root s) = some p →
        fs.resolve root = some rt →
        List.isPrefixOf (pathStr rt) (pathStr p) = false →
        serve_static fs root s = Outcome.Forbidden) := by
  refine ⟨?_, ?_, ?_⟩
  · have habs := startsSlash_normalizeReq s h
    unfold candidate pathJoin
    rw [habs]
    simp
  · exact fun p hf => found_implies_prefixed fs root s p hf
  · exact fun p rt hp hrt hout => forbidden_of_prefix_fail fs root s p rt hp hrt hout

/-- Witness for C8: the absolute request `/etc/shadow` builds the same
candidate whatever the root is (here `/srv/static` versus `/`), and against
root `/srv/static` it is rejected as `Forbidden`. -/
theorem c8_witness :
    candidate rootW "/etc/shadow".toList = candidate [] "/etc/shadow".toList
    ∧ serve_static fsDemo rootW "/etc/shadow".toList = Outcome.Forbidden := by
  have h := c8_absolute_request fsDemo rootW [] "/etc/shadow".toList (by decide)
  exact ⟨h.1, h.2.2 ["etc".toList, "shadow".toList] rootW
    (by decide) (by decide) (by decide)⟩

/-- Claim C9: the handler for `/` returns an unconditional 302 redirect to
`/static/` for every request, whatever its query parameters; it never
consults the resolver (its definition does not mention `serve_static`). -/
theorem c9_root_redirect_constant (r : Request) :
    root_redirect r = ⟨302, "/static/".toList⟩ :=
  rfl

/-- Claim C10: the handler for `/info` returns the fixed 200 plain-text
response with body `Health Ok!` for every request; it never consults the
resolver (its definition does not mention `serve_static`). -/
theorem c10_show_info_constant (r : Request) :
    show_info r = ⟨200, "Health Ok!".toList⟩ :=
  rfl
